import Mathlib

/-!
Shallow embedding of the cirquix hybrid recommendation backend
(`src/05_backend/app/services/hybrid_recommender.py` and
`src/05_backend/app/services/recommendations.py`).

Python floats written as decimal literals (confidence scores, ratings) are
modelled as rationals; a pandas `NaN` cell is modelled as `Option.none`.
Python exceptions are modelled with `Except String`; a Python `None`-valued
attribute is an `Option.none` field of the state.
-/

namespace Cirquix

/-- A Python float value: either NaN (a pandas missing value that leaked
through `float(...)`) or an exact decimal, modelled as a rational. -/
inductive PyFloat where
  | nan : PyFloat
  | val : ℚ → PyFloat
deriving DecidableEq

/-- One row of the `products` table as loaded by `load_product_metadata`
(indexed by `product_id`; `main_category`, `average_rating` and `image_url`
may be NULL/NaN). -/
structure ProductMeta where
  product_id : String
  title : String
  main_category : Option String
  average_rating : Option ℚ
  price : String
  image_url : Option String
deriving DecidableEq

/-- `str(x)` applied to a cell that may be NaN: pandas NaN prints as `nan`. -/
def pyStrOpt : Option String → String
  | some s => s
  | none => "nan"

/-- `float(x)` applied to a cell that may be NaN. -/
def pyFloatOfOpt : Option ℚ → PyFloat
  | some q => PyFloat.val q
  | none => PyFloat.nan

/-- `product_id in self.product_metadata.index` / `.loc[product_id]`:
first row whose index equals the key. -/
def metaFind (ms : List ProductMeta) (pid : String) : Option ProductMeta :=
  ms.find? (fun p => p.product_id = pid)

/-- Association lookup in `user_mappings['to_idx']` (a Python dict,
modelled as an association list). -/
def assocFindS (l : List (String × Nat)) (k : String) : Option Nat :=
  (l.find? (fun pr => pr.1 = k)).map (fun pr => pr.2)

/-- Association lookup in `item_mappings['from_idx']`. -/
def assocFindN (l : List (Nat × String)) (k : Nat) : Option String :=
  (l.find? (fun pr => pr.1 = k)).map (fun pr => pr.2)

/-- The mutable engine state (`HybridRecommendationSystem` attributes):
fields that Python initialises to `None` and fills in `load_models` /
`load_product_metadata` are `Option`s.  `history` stands for the
`interactions` table read by `get_user_history` (most-recent-first
`(product_id, rating)` pairs; a DB failure is absorbed there into `[]`).
`alsRecommend` is the `als_model.recommend` call on the user's matrix row,
taking `(user_idx, N)`; it may fail (modelled as `Except.error`) — a missing
`als_model` behaves as an always-failing call, since `None.recommend`
raises inside the same `try`.  `setEnum` is CPython's iteration order of
`set(xs)`: some enumeration of the distinct elements of `xs`, not
determined by the data (hash randomisation). -/
structure EngineState where
  history : String → List (String × ℚ)
  user_mappings : Option (List (String × Nat))
  item_mappings : Option (List (Nat × String))
  fallback_data : Option (List String)
  product_metadata : Option (List ProductMeta)
  matrixAvailable : Bool
  alsRecommend : Nat → Nat → Except String (List (Nat × ℚ))
  setEnum : List String → List String

/-- `self.min_history_threshold = 5`, set unconditionally in `__init__`. -/
def minHistoryThreshold : Nat := 5

/-- Body of the `try:` block of `get_als_recommendations`: matrix check,
model call, translation of item indices back to product ids
(`filter_already_liked_items=False` — no history exclusion). -/
def alsTryBody (st : EngineState) (user_idx top_k : Nat) :
    Except String (List (String × ℚ)) :=
  if st.matrixAvailable = false then Except.ok []
  else
    match st.alsRecommend user_idx top_k with
    | Except.error e => Except.error e
    | Except.ok pairs =>
        match st.item_mappings with
        | none => Except.error "TypeError: NoneType is not subscriptable"
        | some im =>
            Except.ok (pairs.filterMap
              (fun pr => (assocFindN im pr.1).map (fun pid => (pid, pr.2))))

/-- `get_als_recommendations`: returns `[]` for unmapped users, catches any
exception of the scoring body and turns it into `[]`. -/
def getAlsRecommendations (st : EngineState) (user_id : String) (top_k : Nat) :
    Except String (List (String × ℚ)) :=
  match st.user_mappings with
  | none => Except.error "TypeError: NoneType is not subscriptable"
  | some um =>
      match assocFindS um user_id with
      | none => Except.ok []
      | some user_idx =>
          match alsTryBody st user_idx top_k with
          | Except.ok recs => Except.ok recs
          | Except.error _ => Except.ok []

/-- Python `max(a, b)`: the first argument on a tie.  (Kept as an
executable `if` so concrete requests evaluate by reduction; it agrees with
`max`, see `qmax_eq_max`.) -/
def qmax (a b : ℚ) : ℚ := if b ≤ a then a else b

/-- `get_popularity_recommendations`: filter the popular list by the
exclusion set (skipped when the set is empty/falsy, same result), take
`top_k`, attach confidence `max(1.0 - 0.1*i, 0.1)`. -/
def getPopularityRecommendations (popular : List String) (top_k : Nat)
    (exclude_items : List String) : List (String × ℚ) :=
  let popular_items :=
    if exclude_items.isEmpty then popular
    else popular.filter (fun a => ¬ a ∈ exclude_items)
  (popular_items.take top_k).enum.map
    (fun pr => (pr.2, qmax (1 - (pr.1 : ℚ) * (1/10)) (1/10)))

/-- Rating used for the descending sort (`average_rating` after `dropna`,
so the default is never consulted on the sorted list). -/
def ratingOf (p : ProductMeta) : ℚ := p.average_rating.getD 0

/-- Insertion into a rating-descending list. -/
def insertRatingDesc (p : ProductMeta) : List ProductMeta → List ProductMeta
  | [] => [p]
  | q :: qs =>
      if ratingOf q < ratingOf p then p :: q :: qs
      else q :: insertRatingDesc p qs

/-- `sort_values('average_rating', ascending=False)` modelled as an
insertion sort. -/
def sortByRatingDesc : List ProductMeta → List ProductMeta
  | [] => []
  | p :: ps => insertRatingDesc p (sortByRatingDesc ps)

/-- `get_category_recommendations`: restrict metadata to the category,
apply the (falsy-skipped) exclusion filter, drop NaN ratings, sort by
rating descending, take `top_k`, attach confidence `max(0.8 - 0.1*i, 0.2)`. -/
def getCategoryRecommendations (metadata : Option (List ProductMeta))
    (category : String) (top_k : Nat) (exclude_items : List String) :
    List (String × ℚ) :=
  match metadata with
  | none => []
  | some ms =>
      let category_products := ms.filter (fun p => p.main_category = some category)
      let category_products :=
        if exclude_items.isEmpty then category_products
        else category_products.filter (fun p => ¬ p.product_id ∈ exclude_items)
      let category_products := category_products.filter (fun p => p.average_rating.isSome)
      let sorted := sortByRatingDesc category_products
      (sorted.take top_k).enum.map
        (fun pr => (pr.2.product_id, qmax (8/10 - (pr.1 : ℚ) * (1/10)) (2/10)))

/-- Core of Python `max(l, key=f)`: fold keeping the current best, replaced
only on a strictly larger key — ties go to the earliest element. -/
def pyMaxCore (f : String → Nat) (best : String) : List String → String
  | [] => best
  | y :: ys => pyMaxCore f (if f best < f y then y else best) ys

/-- Python `max(l, key=f)`; `none` on the empty list (`ValueError`). -/
def pyMaxBy (f : String → Nat) : List String → Option String
  | [] => none
  | x :: xs => some (pyMaxCore f x xs)

/-- `max(set(user_categories), key=user_categories.count)`: the most
frequent category, ties broken by the set-iteration order `enum`. -/
def preferredCategory (enum : List String → List String)
    (cats : List String) : Option String :=
  pyMaxBy (fun c => cats.count c) (enum cats)

/-- The distinct elements of a list in first-seen order (used to model the
spec's claimed tie-break, and as one possible concrete set order). -/
def firstOccurrences : List String → List String
  | [] => []
  | x :: xs => x :: (firstOccurrences xs).filter (fun y => y ≠ x)

/-- `_generate_explanation`. -/
def generateExplanation (strategy category : String) : String :=
  if strategy = "als_collaborative" then
    "Recommended based on users with similar preferences in " ++ category
  else if strategy = "hybrid_fallback" then
    "Popular " ++ category ++ " product recommended for you"
  else if strategy = "popularity" then
    "Trending " ++ category ++ " product with high ratings"
  else if strategy = "category_based" then
    "Recommended based on your interest in " ++ category ++ " products"
  else "Recommended product based on your preferences"

/-- One dict of the `recommendations` list returned by the engine.  The
fields that exist only in the metadata-enriched shape are `Option`s and are
`none` in the bare `{product_id, confidence}` shape. -/
structure OutCandidate where
  product_id : String
  confidence : ℚ
  title : Option String := none
  category : Option String := none
  price : Option String := none
  rating : Option PyFloat := none
  image_url : Option String := none
  explanation : Option String := none
deriving DecidableEq

/-- The dict returned by `HybridRecommendationSystem.get_recommendations`. -/
structure EngineResult where
  user_id : String
  strategy : String
  recommendations : List OutCandidate
  user_history_size : Nat
deriving DecidableEq

/-- Metadata enrichment of one `(product_id, confidence)` pair: on an index
hit the row's fields (NaN category prints as `nan`, NaN rating stays NaN);
on a miss the dict defaults `Unknown Product` / `Unknown` / `N/A` / `0.0`,
and the explanation falls back to the category word `product`. -/
def enrichOne (ms : List ProductMeta) (strategy : String) (pr : String × ℚ) :
    OutCandidate :=
  match metaFind ms pr.1 with
  | some p =>
      { product_id := pr.1
        confidence := pr.2
        title := some p.title
        category := some (pyStrOpt p.main_category)
        price := some p.price
        rating := some (pyFloatOfOpt p.average_rating)
        image_url := p.image_url
        explanation := some (generateExplanation strategy (pyStrOpt p.main_category)) }
  | none =>
      { product_id := pr.1
        confidence := pr.2
        title := some "Unknown Product"
        category := some "Unknown"
        price := some "N/A"
        rating := some (PyFloat.val 0)
        image_url := none
        explanation := some (generateExplanation strategy "product") }

/-- The bare `{product_id, confidence}` dict of the non-enriched branch. -/
def plainOne (pr : String × ℚ) : OutCandidate :=
  { product_id := pr.1, confidence := pr.2 }

/-- The final packaging of `get_recommendations`: enrich when
`include_metadata` is set and metadata was loaded, else bare dicts. -/
def buildResult (st : EngineState) (user_id : String) (include_metadata : Bool)
    (recs : List (String × ℚ)) (strategy : String) (hsize : Nat) : EngineResult :=
  match include_metadata, st.product_metadata with
  | true, some ms =>
      { user_id := user_id, strategy := strategy
        recommendations := recs.map (enrichOne ms strategy)
        user_history_size := hsize }
  | _, _ =>
      { user_id := user_id, strategy := strategy
        recommendations := recs.map plainOne
        user_history_size := hsize }

/-- The condition of line 221,
`len(history_items) >= self.min_history_threshold and user_id in
self.user_mappings['to_idx']`: short-circuit, and subscripting a `None`
mapping raises. -/
def eligibility (st : EngineState) (user_id : String) (historyLen : Nat) :
    Except String Bool :=
  if historyLen ≥ minHistoryThreshold then
    match st.user_mappings with
    | none => Except.error "TypeError: NoneType is not subscriptable"
    | some um => Except.ok (assocFindS um user_id).isSome
  else Except.ok false

/-- The category step of the fallback branch (lines 236-251): collect the
categories of the first 5 history items found in metadata, pick the most
frequent via `max(set(...), key=...)`, and query category recommendations
excluding history items and the popularity picks. -/
def catRecsStep (st : EngineState) (history_items : List String)
    (pop_recs : List (String × ℚ)) (top_k : Nat) :
    Except String (List (String × ℚ)) :=
  if history_items.isEmpty then Except.ok []
  else
    match st.product_metadata with
    | none => Except.ok []
    | some ms =>
        let user_categories :=
          (history_items.take 5).filterMap
            (fun item => (metaFind ms item).bind (fun p => p.main_category))
        if user_categories.isEmpty then Except.ok []
        else
          match preferredCategory st.setEnum user_categories with
          | none => Except.error "ValueError: max arg is an empty sequence"
          | some c =>
              Except.ok (getCategoryRecommendations st.product_metadata c
                (top_k / 3) (history_items ++ pop_recs.map Prod.fst))

/-- The fallback branch (lines 228-254): popularity picks with
`top_k = max(6, k//2)` excluding history, then category picks, concatenated
and truncated to `k`.  A `None` `fallback_data` raises
(`None.get` on line 163 is not caught by any handler on this path). -/
def fallbackRecs (st : EngineState) (history_items : List String) (top_k : Nat) :
    Except String (List (String × ℚ)) :=
  match st.fallback_data with
  | none => Except.error "AttributeError: NoneType has no attribute get"
  | some popular =>
      let pop_recs := getPopularityRecommendations popular (max 6 (top_k / 2)) history_items
      match catRecsStep st history_items pop_recs top_k with
      | Except.error e => Except.error e
      | Except.ok cat_recs => Except.ok ((pop_recs ++ cat_recs).take top_k)

/-- `HybridRecommendationSystem.get_recommendations`. -/
def engineGetRecommendations (st : EngineState) (user_id : String)
    (top_k : Nat) (include_metadata : Bool) : Except String EngineResult :=
  let history_items := (st.history user_id).map Prod.fst
  match eligibility st user_id history_items.length with
  | Except.error e => Except.error e
  | Except.ok cond =>
      match (if cond then getAlsRecommendations st user_id top_k else Except.ok []) with
      | Except.error e => Except.error e
      | Except.ok als_recs =>
          if als_recs.isEmpty then
            match fallbackRecs st history_items top_k with
            | Except.error e => Except.error e
            | Except.ok recs =>
                Except.ok (buildResult st user_id include_metadata recs
                  "hybrid_fallback" history_items.length)
          else
            Except.ok (buildResult st user_id include_metadata als_recs
              "als_collaborative" history_items.length)

/-! ## Service layer (`recommendations.py`) -/

/-- One formatted recommendation dict of `RecommendationService`. -/
structure ServiceCandidate where
  product_id : String
  title : String
  category : String
  price : Option String
  rating : Option PyFloat
  confidence : ℚ
  explanation : String
deriving DecidableEq

/-- The dict returned by `RecommendationService.get_recommendations`. -/
structure ServiceResult where
  user_id : String
  strategy : String
  recommendations : List ServiceCandidate
deriving DecidableEq

/-- The hard-coded static fallback list of
`RecommendationService._get_fallback_recommendations`. -/
def fallbackProducts : List ServiceCandidate :=
  [ { product_id := "B01K8B8YA8", title := "Echo Dot Smart Speaker"
      category := "Amazon Devices", price := some "49.99"
      rating := some (PyFloat.val (9/2)), confidence := 1/2
      explanation := "Popular product recommendation" },
    { product_id := "B075X8471B", title := "Fire TV Stick"
      category := "Amazon Devices", price := some "39.99"
      rating := some (PyFloat.val (9/2)), confidence := 2/5
      explanation := "Trending electronics product" } ]

/-- `for rec, llm_exp in zip(recs, llm_explanations): if ids match, update
the explanation in place`; items beyond the zip are unchanged. -/
def llmZipUpdate (recs : List ServiceCandidate) (exps : List (String × String)) :
    List ServiceCandidate :=
  match recs, exps with
  | r :: rs, e :: es =>
      (if r.product_id = e.1 then { r with explanation := e.2 } else r)
        :: llmZipUpdate rs es
  | rs, _ => rs

/-- The guarded LLM-explanation step, identical in
`get_recommendations` and `_get_fallback_recommendations`:
`if use_llm and get_llm_explanation and recs: try: ... except: pass`. -/
def llmApply
    (llm : Option (String → List ServiceCandidate → Except String (List (String × String))))
    (use_llm : Bool) (user_id : String) (recs : List ServiceCandidate) :
    List ServiceCandidate :=
  match use_llm, llm, recs with
  | true, some f, r :: rs =>
      match f user_id (r :: rs) with
      | Except.ok exps => llmZipUpdate (r :: rs) exps
      | Except.error _ => r :: rs
  | _, _, _ => recs

/-- State of `RecommendationService`: `recommender` is `None` when
`_load_models` failed (missing `2_hybrid_recommender.py`), else a
`HybridRecommendationSystem(model_dir)` instance — note `_load_models`
never calls `load_models()` on it.  `llm` is the imported
`get_llm_explanation` (`none` when the import failed); it returns
`(product_id, explanation)` pairs or raises. -/
structure ServiceState where
  recommender : Option EngineState
  llm : Option (String → List ServiceCandidate → Except String (List (String × String)))

/-- The engine state the service actually holds: a
`HybridRecommendationSystem` on which `load_models` /
`load_product_metadata` were never called, so every loadable attribute is
still `None` and no user-item matrix exists. -/
def unloadedEngineState (history : String → List (String × ℚ))
    (als : Nat → Nat → Except String (List (Nat × ℚ)))
    (enum : List String → List String) : EngineState :=
  { history := history
    user_mappings := none
    item_mappings := none
    fallback_data := none
    product_metadata := none
    matrixAvailable := false
    alsRecommend := als
    setEnum := enum }

/-- The keys of the engine's result dict, in insertion order: this is what
`for rec in recommendations:` iterates over, because the engine returns a
dict, not a list. -/
def engineDictKeys (_ : EngineResult) : List String :=
  ["user_id", "strategy", "recommendations", "user_history_size"]

/-- The formatting loop of `RecommendationService.get_recommendations`
(lines 54-64): iterating the engine's dict yields its key strings, and
`rec["product_id"]` on a string raises `TypeError` at the first key. -/
def formatEngineDict (r : EngineResult) : Except String (List ServiceCandidate) :=
  match engineDictKeys r with
  | [] => Except.ok []
  | _ :: _ => Except.error "TypeError: string indices must be integers"

/-- The `try:` body of `RecommendationService.get_recommendations` (lines
45-81).  If the engine call and the formatting loop both succeeded, the
final dict construction evaluates `recommendations[0]` — an integer
subscript on the result dict, which has no key `0` — raising `KeyError`. -/
def serviceTry (ss : ServiceState) (eng : EngineState) (user_id : String)
    (num_recommendations : Nat) (use_llm : Bool) : Except String ServiceResult :=
  match engineGetRecommendations eng user_id num_recommendations true with
  | Except.error e => Except.error e
  | Except.ok recDict =>
      match formatEngineDict recDict with
      | Except.error e => Except.error e
      | Except.ok formatted =>
          let _ := llmApply ss.llm use_llm user_id formatted
          Except.error "KeyError: 0"

/-- `RecommendationService._get_fallback_recommendations`: the static
two-product list truncated to the requested count, with optional
LLM-rewritten explanations (their failure is swallowed). -/
def getFallbackRecommendations (ss : ServiceState) (user_id : String)
    (num_recommendations : Nat) (use_llm : Bool) : ServiceResult :=
  { user_id := user_id, strategy := "fallback"
    recommendations :=
      llmApply ss.llm use_llm user_id (fallbackProducts.take num_recommendations) }

/-- `RecommendationService.get_recommendations`: fallback when no
recommender, else the `try:` body with every exception routed to the
fallback. -/
def serviceGetRecommendations (ss : ServiceState) (user_id : String)
    (num_recommendations : Nat) (use_llm : Bool) : ServiceResult :=
  match ss.recommender with
  | none => getFallbackRecommendations ss user_id num_recommendations use_llm
  | some eng =>
      match serviceTry ss eng user_id num_recommendations use_llm with
      | Except.ok r => r
      | Except.error _ => getFallbackRecommendations ss user_id num_recommendations use_llm

/-- The filtered pool the category sort runs over. -/
def catPool (ms : List ProductMeta) (category : String) (ex : List String) :
    List ProductMeta :=
  let base := ms.filter (fun p => p.main_category = some category)
  let base :=
    if ex.isEmpty then base
    else base.filter (fun p => ¬ p.product_id ∈ ex)
  base.filter (fun p => p.average_rating.isSome)

/-! ## Concrete states used by witnesses and counterexamples -/

/-- Product of category `A` with the top rating. -/
def pmA : ProductMeta := ⟨"PA", "Prod A", some "A", some (9/2), "10.00", none⟩

/-- Product of category `B` with the top rating. -/
def pmB : ProductMeta := ⟨"PB", "Prod B", some "B", some 4, "11.00", none⟩

/-- History item of category `A`. -/
def pmH1 : ProductMeta := ⟨"H1", "Hist 1", some "A", some 3, "5.00", none⟩

/-- History item of category `B`. -/
def pmH2 : ProductMeta := ⟨"H2", "Hist 2", some "B", some 3, "5.00", none⟩

/-- Loaded state whose ALS call honours the requested count: used to
exercise the collaborative branch. -/
def stC1 : EngineState :=
  { history := fun u => if u = "u1" then
      [("H1", 5), ("H2", 5), ("H3", 5), ("H4", 5), ("H5", 5)] else []
    user_mappings := some [("u1", 0)]
    item_mappings := some [(0, "X1")]
    fallback_data := some ["F1"]
    product_metadata := none
    matrixAvailable := true
    alsRecommend := fun _ n => Except.ok ([((0 : Nat), (2 : ℚ))].take n)
    setEnum := firstOccurrences }

/-- Loaded state whose ALS model returns the already-interacted item `H1`
(`filter_already_liked_items=False`). -/
def stC2 : EngineState :=
  { history := fun u => if u = "u1" then
      [("H1", 5), ("H2", 5), ("H3", 5), ("H4", 5), ("H5", 5)] else []
    user_mappings := some [("u1", 0)]
    item_mappings := some [(0, "H1")]
    fallback_data := some []
    product_metadata := none
    matrixAvailable := true
    alsRecommend := fun _ _ => Except.ok [((0 : Nat), (2 : ℚ))]
    setEnum := firstOccurrences }

/-- Fallback-branch state with a two-item history whose categories tie
(`A` then `B`), parametrised by the set-iteration order. -/
def mkTieState (enum : List String → List String) : EngineState :=
  { history := fun u => if u = "u2" then [("H1", 5), ("H2", 4)] else []
    user_mappings := some []
    item_mappings := some []
    fallback_data := some []
    product_metadata := some [pmA, pmB, pmH1, pmH2]
    matrixAvailable := false
    alsRecommend := fun _ _ => Except.ok []
    setEnum := enum }

/-- The tie state under a first-seen set order. -/
def stTieA : EngineState := mkTieState firstOccurrences

/-- The tie state under the reversed set order: same artifacts, different
hash-dependent enumeration. -/
def stTieB : EngineState := mkTieState (fun xs => (firstOccurrences xs).reverse)

/-- Loaded state whose ALS call raises. -/
def stC4 : EngineState :=
  { history := fun u => if u = "u1" then
      [("H1", 5), ("H2", 5), ("H3", 5), ("H4", 5), ("H5", 5)] else []
    user_mappings := some [("u1", 0)]
    item_mappings := some [(0, "X1")]
    fallback_data := some ["F1", "F2"]
    product_metadata := none
    matrixAvailable := true
    alsRecommend := fun _ _ => Except.error "shape mismatch"
    setEnum := firstOccurrences }

/-- Metadata-loaded state whose fallback table contains a product (`PY`)
absent from the metadata. -/
def stC9 : EngineState :=
  { history := fun _ => []
    user_mappings := none
    item_mappings := none
    fallback_data := some ["PA", "PY"]
    product_metadata := some [pmA]
    matrixAvailable := false
    alsRecommend := fun _ _ => Except.error "no model"
    setEnum := firstOccurrences }

/-- Cold-start state: no history, unmapped user, ten popular items. -/
def stC10 : EngineState :=
  { history := fun _ => []
    user_mappings := none
    item_mappings := none
    fallback_data := some ["P1", "P2", "P3", "P4", "P5", "P6", "P7", "P8", "P9", "P10"]
    product_metadata := none
    matrixAvailable := false
    alsRecommend := fun _ _ => Except.error "no model"
    setEnum := firstOccurrences }

/-- Service state holding, as in production, an engine on which
`load_models` was never called. -/
def ssC3 : ServiceState :=
  { recommender := some (unloadedEngineState
      (fun u => if u = "u1" then [("H1", 5)] else [])
      (fun _ _ => Except.ok [])
      firstOccurrences)
    llm := none }

/-! ## Helper lemmas -/

lemma enrichOne_product_id (ms : List ProductMeta) (s : String) (pr : String × ℚ) :
    (enrichOne ms s pr).product_id = pr.1 := by
  unfold enrichOne
  cases metaFind ms pr.1 <;> rfl

lemma enrichOne_confidence (ms : List ProductMeta) (s : String) (pr : String × ℚ) :
    (enrichOne ms s pr).confidence = pr.2 := by
  unfold enrichOne
  cases metaFind ms pr.1 <;> rfl

lemma buildResult_strategy (st : EngineState) (u : String) (im : Bool)
    (recs : List (String × ℚ)) (strat : String) (n : Nat) :
    (buildResult st u im recs strat n).strategy = strat := by
  unfold buildResult
  cases im <;> cases st.product_metadata <;> rfl

lemma buildResult_length (st : EngineState) (u : String) (im : Bool)
    (recs : List (String × ℚ)) (strat : String) (n : Nat) :
    (buildResult st u im recs strat n).recommendations.length = recs.length := by
  unfold buildResult
  cases im <;> cases st.product_metadata <;> simp

lemma buildResult_ids (st : EngineState) (u : String) (im : Bool)
    (recs : List (String × ℚ)) (strat : String) (n : Nat) :
    (buildResult st u im recs strat n).recommendations.map (fun c => c.product_id)
      = recs.map Prod.fst := by
  unfold buildResult
  cases im <;> cases st.product_metadata <;>
    simp [plainOne, List.map_map, Function.comp, enrichOne_product_id]

lemma buildResult_confidences (st : EngineState) (u : String) (im : Bool)
    (recs : List (String × ℚ)) (strat : String) (n : Nat) :
    (buildResult st u im recs strat n).recommendations.map (fun c => c.confidence)
      = recs.map Prod.snd := by
  unfold buildResult
  cases im <;> cases st.product_metadata <;>
    simp [plainOne, List.map_map, Function.comp, enrichOne_confidence]

/-! ### Popularity strategy -/

/-- The ids of the popularity portion: the (possibly filtered) popular list
truncated to `top_k`. -/
lemma pop_ids (popular : List String) (top_k : Nat) (ex : List String) :
    (getPopularityRecommendations popular top_k ex).map Prod.fst
      = (if ex.isEmpty then popular
         else popular.filter (fun a => ¬ a ∈ ex)).take top_k := by
  unfold getPopularityRecommendations
  rw [List.map_map]
  rw [show (Prod.fst ∘ fun pr : Nat × String =>
      ((pr.2 : String), qmax (1 - (pr.1 : ℚ) * (1/10)) (1/10))) = Prod.snd from rfl]
  exact List.enum_map_snd _

lemma pop_length_le (popular : List String) (top_k : Nat) (ex : List String) :
    (getPopularityRecommendations popular top_k ex).length ≤ top_k := by
  unfold getPopularityRecommendations
  simp only [List.length_map, List.enum_length, List.length_take]
  exact min_le_left _ _

lemma pop_mem (popular : List String) (top_k : Nat) (ex : List String)
    (pr : String × ℚ) (h : pr ∈ getPopularityRecommendations popular top_k ex) :
    pr.1 ∈ popular ∧ pr.1 ∉ ex := by
  have hid : pr.1 ∈ (getPopularityRecommendations popular top_k ex).map Prod.fst :=
    List.mem_map_of_mem Prod.fst h
  rw [pop_ids] at hid
  have hmem := List.mem_of_mem_take hid
  by_cases he : ex.isEmpty
  · rw [if_pos he] at hmem
    have : ex = [] := List.isEmpty_iff.mp he
    exact ⟨hmem, by simp [this]⟩
  · rw [if_neg he] at hmem
    have := List.mem_filter.mp hmem
    refine ⟨this.1, ?_⟩
    simpa using this.2

lemma pop_confidence (popular : List String) (top_k : Nat) (ex : List String)
    (i : Nat) (h : i < (getPopularityRecommendations popular top_k ex).length) :
    ((getPopularityRecommendations popular top_k ex).get ⟨i, h⟩).2
      = qmax (1 - (i : ℚ) * (1/10)) (1/10) := by
  unfold getPopularityRecommendations at h ⊢
  simp only [List.get_eq_getElem, List.getElem_map]
  rw [List.getElem_enum]

/-- `qmax` agrees with `max`. -/
lemma qmax_eq_max (a b : ℚ) : qmax a b = max a b := by
  unfold qmax
  rcases le_or_lt b a with h | h
  · rw [if_pos h, max_eq_left h]
  · rw [if_neg (not_le.mpr h), max_eq_right (le_of_lt h)]

/-- The fixed confidence decay `max(1.0 - 0.1*i, 0.1)` is antitone. -/
lemma pop_decay_antitone (i j : Nat) (hij : i ≤ j) :
    qmax (1 - (j : ℚ) * (1/10)) (1/10) ≤ qmax (1 - (i : ℚ) * (1/10)) (1/10) := by
  rw [qmax_eq_max, qmax_eq_max]
  apply max_le_max _ le_rfl
  have : (i : ℚ) ≤ (j : ℚ) := by exact_mod_cast hij
  nlinarith

/-! ### Category strategy -/

lemma mem_insertRatingDesc (p a : ProductMeta) (l : List ProductMeta) :
    a ∈ insertRatingDesc p l ↔ a = p ∨ a ∈ l := by
  induction l with
  | nil => simp [insertRatingDesc]
  | cons q qs ih =>
      unfold insertRatingDesc
      by_cases hq : ratingOf q < ratingOf p
      · simp [hq]
      · simp [hq, ih]
        tauto

lemma pairwise_insertRatingDesc (p : ProductMeta) (l : List ProductMeta)
    (h : l.Pairwise (fun a b => ratingOf b ≤ ratingOf a)) :
    (insertRatingDesc p l).Pairwise (fun a b => ratingOf b ≤ ratingOf a) := by
  induction l with
  | nil => simp [insertRatingDesc]
  | cons q qs ih =>
      unfold insertRatingDesc
      rcases List.pairwise_cons.mp h with ⟨hq, hqs⟩
      by_cases hlt : ratingOf q < ratingOf p
      · rw [if_pos hlt]
        refine List.pairwise_cons.mpr ⟨?_, h⟩
        intro b hb
        rcases List.mem_cons.mp hb with hb | hb
        · subst hb
          exact le_of_lt hlt
        · exact le_trans (hq b hb) (le_of_lt hlt)
      · rw [if_neg hlt]
        refine List.pairwise_cons.mpr ⟨?_, ih hqs⟩
        intro b hb
        rcases (mem_insertRatingDesc p b qs).mp hb with hb | hb
        · subst hb
          exact le_of_not_lt hlt
        · exact hq b hb

lemma pairwise_sortByRatingDesc (l : List ProductMeta) :
    (sortByRatingDesc l).Pairwise (fun a b => ratingOf b ≤ ratingOf a) := by
  induction l with
  | nil => simp [sortByRatingDesc]
  | cons p ps ih => exact pairwise_insertRatingDesc p _ ih

lemma mem_sortByRatingDesc (a : ProductMeta) (l : List ProductMeta) :
    a ∈ sortByRatingDesc l ↔ a ∈ l := by
  induction l with
  | nil => simp [sortByRatingDesc]
  | cons p ps ih =>
      unfold sortByRatingDesc
      rw [mem_insertRatingDesc]
      simp [ih]

lemma getCategoryRecommendations_eq (ms : List ProductMeta)
    (category : String) (top_k : Nat) (ex : List String) :
    getCategoryRecommendations (some ms) category top_k ex
      = ((sortByRatingDesc (catPool ms category ex)).take top_k).enum.map
          (fun pr => (pr.2.product_id, qmax (8/10 - (pr.1 : ℚ) * (1/10)) (2/10))) := rfl

lemma cat_length_le (ms : List ProductMeta) (category : String)
    (top_k : Nat) (ex : List String) :
    (getCategoryRecommendations (some ms) category top_k ex).length ≤ top_k := by
  rw [getCategoryRecommendations_eq]
  simp only [List.length_map, List.enum_length, List.length_take]
  exact min_le_left _ _

lemma mem_catPool (ms : List ProductMeta) (category : String) (ex : List String)
    (p : ProductMeta) (h : p ∈ catPool ms category ex) :
    p ∈ ms ∧ p.main_category = some category ∧ p.average_rating.isSome
      ∧ p.product_id ∉ ex := by
  unfold catPool at h
  have h1 := List.mem_filter.mp h
  by_cases he : ex.isEmpty
  · rw [if_pos he] at h1
    have h2 := List.mem_filter.mp h1.1
    have hex : ex = [] := List.isEmpty_iff.mp he
    refine ⟨h2.1, by simpa using h2.2, h1.2, by simp [hex]⟩
  · rw [if_neg he] at h1
    have h2 := List.mem_filter.mp h1.1
    have h3 := List.mem_filter.mp h2.1
    refine ⟨h3.1, by simpa using h3.2, h1.2, by simpa using h2.2⟩

lemma cat_mem (ms : List ProductMeta) (category : String) (top_k : Nat)
    (ex : List String) (pr : String × ℚ)
    (h : pr ∈ getCategoryRecommendations (some ms) category top_k ex) :
    ∃ p, p ∈ ms ∧ p.product_id = pr.1 ∧ p.main_category = some category
      ∧ p.average_rating.isSome ∧ pr.1 ∉ ex := by
  rw [getCategoryRecommendations_eq] at h
  rcases List.mem_map.mp h with ⟨q, hq, hqe⟩
  have hq2 : q.2 ∈ ((sortByRatingDesc (catPool ms category ex)).take top_k) := by
    have := List.mem_map_of_mem Prod.snd hq
    rwa [List.enum_map_snd] at this
  have hq3 := List.mem_of_mem_take hq2
  have hq4 := (mem_sortByRatingDesc _ _).mp hq3
  rcases mem_catPool ms category ex q.2 hq4 with ⟨hm, hc, hr, hx⟩
  refine ⟨q.2, hm, ?_, hc, hr, ?_⟩
  · rw [← hqe]
  · rw [← hqe]
    exact hx

/-- Generic: the second component of the `i`-th element of an
`enum`-with-decay list is the decay applied to `i`. -/
lemma enum_decay_get {α β γ : Type} (l : List α) (f : α → β) (g : Nat → γ)
    (i : Nat) (h : i < (l.enum.map (fun pr => (f pr.2, g pr.1))).length) :
    ((l.enum.map (fun pr => (f pr.2, g pr.1))).get ⟨i, h⟩).2 = g i := by
  simp only [List.get_eq_getElem, List.getElem_map]
  rw [List.getElem_enum]

lemma cat_confidence (ms : List ProductMeta) (category : String) (top_k : Nat)
    (ex : List String) (i : Nat)
    (h : i < (getCategoryRecommendations (some ms) category top_k ex).length) :
    ((getCategoryRecommendations (some ms) category top_k ex).get ⟨i, h⟩).2
      = qmax (8/10 - (i : ℚ) * (1/10)) (2/10) :=
  enum_decay_get ((sortByRatingDesc (catPool ms category ex)).take top_k)
    (fun p => p.product_id) (fun i => qmax (8/10 - (i : ℚ) * (1/10)) (2/10)) i h

/-- The category portion lists the sorted pool's ids in order. -/
lemma cat_ids (ms : List ProductMeta) (category : String) (top_k : Nat)
    (ex : List String) :
    (getCategoryRecommendations (some ms) category top_k ex).map Prod.fst
      = ((sortByRatingDesc (catPool ms category ex)).take top_k).map
          (fun p => p.product_id) := by
  rw [getCategoryRecommendations_eq, List.map_map]
  rw [show ((Prod.fst ∘ fun pr : Nat × ProductMeta =>
      (pr.2.product_id, qmax (8/10 - (pr.1 : ℚ) * (1/10)) (2/10))))
      = ((fun p : ProductMeta => p.product_id) ∘ Prod.snd) from rfl]
  rw [← List.map_map]
  rw [List.enum_map_snd]

/-- Ratings along the truncated sorted pool are non-increasing. -/
lemma cat_sorted_take (ms : List ProductMeta) (category : String)
    (top_k : Nat) (ex : List String) :
    (((sortByRatingDesc (catPool ms category ex)).take top_k)).Pairwise
      (fun a b => ratingOf b ≤ ratingOf a) :=
  List.Pairwise.sublist (List.take_sublist _ _) (pairwise_sortByRatingDesc _)

/-! ### Python `max(..., key=...)` -/

lemma pyMaxCore_mem (f : String → Nat) (b : String) (l : List String) :
    pyMaxCore f b l ∈ b :: l := by
  induction l generalizing b with
  | nil => simp [pyMaxCore]
  | cons y ys ih =>
      unfold pyMaxCore
      by_cases hy : f b < f y
      · rw [if_pos hy]
        have := ih y
        simp only [List.mem_cons] at this ⊢
        tauto
      · rw [if_neg hy]
        have := ih b
        simp only [List.mem_cons] at this ⊢
        tauto

lemma pyMaxCore_le (f : String → Nat) (b : String) (l : List String) :
    ∀ d ∈ b :: l, f d ≤ f (pyMaxCore f b l) := by
  induction l generalizing b with
  | nil =>
      intro d hd
      simp only [List.mem_singleton] at hd
      rw [hd]
      simp [pyMaxCore]
  | cons y ys ih =>
      intro d hd
      unfold pyMaxCore
      by_cases hy : f b < f y
      · rw [if_pos hy]
        rcases List.mem_cons.mp hd with hd | hd
        · rw [hd]
          exact le_trans (le_of_lt hy) (ih y y (by simp))
        · exact ih y d hd
      · rw [if_neg hy]
        rcases List.mem_cons.mp hd with hd | hd
        · rw [hd]
          exact ih b b (by simp)
        · rcases List.mem_cons.mp hd with hd | hd
          · rw [hd]
            exact le_trans (le_of_not_lt hy) (ih b b (by simp))
          · exact ih b d (by simp [hd])

/-- `max` keeps the earliest element among those attaining the maximal key:
everything strictly before the result in the scanned list has a strictly
smaller key. -/
lemma pyMaxCore_first (f : String → Nat) (b : String) (l : List String) :
    ∃ l₁ l₂, b :: l = l₁ ++ pyMaxCore f b l :: l₂
      ∧ ∀ d ∈ l₁, f d < f (pyMaxCore f b l) := by
  induction l generalizing b with
  | nil => exact ⟨[], [], by simp [pyMaxCore], by simp⟩
  | cons y ys ih =>
      unfold pyMaxCore
      by_cases hy : f b < f y
      · rw [if_pos hy]
        rcases ih y with ⟨m₁, m₂, hm, hlt⟩
        refine ⟨b :: m₁, m₂, by rw [List.cons_append, ← hm], ?_⟩
        intro d hd
        rcases List.mem_cons.mp hd with hd | hd
        · subst hd
          exact lt_of_lt_of_le hy (pyMaxCore_le f y ys y (by simp))
        · exact hlt d hd
      · rw [if_neg hy]
        rcases ih b with ⟨m₁, m₂, hm, hlt⟩
        cases m₁ with
        | nil =>
            simp only [List.nil_append, List.cons.injEq] at hm
            refine ⟨[], y :: ys, ?_, by simp⟩
            rw [← hm.1]
            simp
        | cons z m₁ =>
            simp only [List.cons_append, List.cons.injEq] at hm
            have hz : b = z := hm.1
            have htail : ys = m₁ ++ pyMaxCore f b ys :: m₂ := hm.2
            have hble : f b < f (pyMaxCore f b ys) := by
              apply hlt
              rw [← hz]
              simp
            refine ⟨b :: y :: m₁, m₂, ?_, ?_⟩
            · conv_lhs => rw [htail]
              simp
            intro d hd
            rcases List.mem_cons.mp hd with hd | hd
            · rw [hd]
              exact hble
            · rcases List.mem_cons.mp hd with hd | hd
              · rw [hd]
                exact lt_of_le_of_lt (le_of_not_lt hy) hble
              · apply hlt
                rw [← hz]
                simp [hd]

lemma pyMaxBy_of_ne_nil (f : String → Nat) (l : List String) (h : l ≠ []) :
    ∃ c, pyMaxBy f l = some c := by
  cases l with
  | nil => exact absurd rfl h
  | cons x xs => exact ⟨pyMaxCore f x xs, rfl⟩

/-! ### Service layer lemmas -/

lemma llmZipUpdate_ids (recs : List ServiceCandidate) (exps : List (String × String)) :
    (llmZipUpdate recs exps).map (fun c => c.product_id)
      = recs.map (fun c => c.product_id) := by
  induction recs generalizing exps with
  | nil => cases exps <;> rfl
  | cons r rs ih =>
      cases exps with
      | nil => rfl
      | cons e es =>
          unfold llmZipUpdate
          by_cases he : r.product_id = e.1 <;> simp [he, ih]

lemma llmZipUpdate_length (recs : List ServiceCandidate) (exps : List (String × String)) :
    (llmZipUpdate recs exps).length = recs.length := by
  have := congrArg List.length (llmZipUpdate_ids recs exps)
  simpa using this

lemma getFallbackRecommendations_strategy (ss : ServiceState) (u : String)
    (n : Nat) (ul : Bool) :
    (getFallbackRecommendations ss u n ul).strategy = "fallback" := rfl

/-- The LLM step rewrites only explanations: ids are untouched. -/
lemma llmApply_ids
    (llm : Option (String → List ServiceCandidate → Except String (List (String × String))))
    (ul : Bool) (u : String) (recs : List ServiceCandidate) :
    (llmApply llm ul u recs).map (fun c => c.product_id)
      = recs.map (fun c => c.product_id) := by
  unfold llmApply
  split
  · split
    · exact llmZipUpdate_ids _ _
    · rfl
  · rfl

lemma getFallbackRecommendations_ids (ss : ServiceState) (u : String)
    (n : Nat) (ul : Bool) :
    (getFallbackRecommendations ss u n ul).recommendations.map (fun c => c.product_id)
      = (fallbackProducts.take n).map (fun c => c.product_id) := by
  unfold getFallbackRecommendations
  exact llmApply_ids _ _ _ _

/-- The engine held by the service (never `load_models`-ed) raises on every
request: either the eligibility check subscripts the `None` mapping, or the
fallback branch calls `.get` on the `None` fallback data. -/
lemma unloadedEngine_error (history : String → List (String × ℚ))
    (als : Nat → Nat → Except String (List (Nat × ℚ)))
    (enum : List String → List String) (u : String) (k : Nat) (im : Bool) :
    ∃ e, engineGetRecommendations (unloadedEngineState history als enum) u k im
      = Except.error e := by
  simp only [engineGetRecommendations, eligibility, unloadedEngineState, fallbackRecs]
  by_cases h5 : ((history u).map Prod.fst).length ≥ minHistoryThreshold
  · rw [if_pos h5]
    exact ⟨_, rfl⟩
  · rw [if_neg h5]
    exact ⟨_, rfl⟩

/-- The service layer routes every engine exception to the static fallback. -/
lemma serviceGetRecommendations_of_error (ss : ServiceState) (eng : EngineState)
    (u : String) (n : Nat) (ul : Bool) (e : String)
    (hrec : ss.recommender = some eng)
    (h : serviceTry ss eng u n ul = Except.error e) :
    serviceGetRecommendations ss u n ul = getFallbackRecommendations ss u n ul := by
  simp only [serviceGetRecommendations, hrec, h]

/-- With the engine raising, `serviceTry` raises as well. -/
lemma serviceTry_error_of_engine_error (ss : ServiceState) (eng : EngineState)
    (u : String) (n : Nat) (ul : Bool) (e : String)
    (h : engineGetRecommendations eng u n true = Except.error e) :
    serviceTry ss eng u n ul = Except.error e := by
  simp only [serviceTry, h]

/-! ### Engine inversion lemmas -/

/-- A successful engine result carries one of the two strategy tags. -/
lemma engine_ok_strategy (st : EngineState) (u : String) (k : Nat) (im : Bool)
    (r : EngineResult) (h : engineGetRecommendations st u k im = Except.ok r) :
    r.strategy = "als_collaborative" ∨ r.strategy = "hybrid_fallback" := by
  simp only [engineGetRecommendations] at h
  cases he : eligibility st u ((st.history u).map Prod.fst).length with
  | error e => rw [he] at h; simp at h
  | ok cond =>
      rw [he] at h
      simp only [] at h
      cases ha : (if cond then getAlsRecommendations st u k else Except.ok []) with
      | error e => rw [ha] at h; simp only [] at h; simp at h
      | ok als_recs =>
          rw [ha] at h
          simp only [] at h
          by_cases hemp : als_recs.isEmpty
          · rw [if_pos hemp] at h
            cases hf : fallbackRecs st ((st.history u).map Prod.fst) k with
            | error e => rw [hf] at h; simp at h
            | ok recs =>
                rw [hf] at h
                cases h
                right
                exact buildResult_strategy ..
          · rw [if_neg hemp] at h
            cases h
            left
            exact buildResult_strategy ..

/-- If the result is collaborative, the user had at least
`minHistoryThreshold` history items and is present in the (loaded) user
mapping, and the recommendations are the translated ALS output. -/
lemma engine_als_inversion (st : EngineState) (u : String) (k : Nat) (im : Bool)
    (r : EngineResult) (h : engineGetRecommendations st u k im = Except.ok r)
    (hs : r.strategy = "als_collaborative") :
    (st.history u).length ≥ minHistoryThreshold
      ∧ (∃ um, st.user_mappings = some um ∧ (assocFindS um u).isSome)
      ∧ ∃ als_recs, getAlsRecommendations st u k = Except.ok als_recs
          ∧ als_recs ≠ []
          ∧ r = buildResult st u im als_recs "als_collaborative"
              ((st.history u).map Prod.fst).length := by
  simp only [engineGetRecommendations] at h
  cases he : eligibility st u ((st.history u).map Prod.fst).length with
  | error e => rw [he] at h; simp at h
  | ok cond =>
      rw [he] at h
      simp only [] at h
      cases ha : (if cond then getAlsRecommendations st u k else Except.ok []) with
      | error e => rw [ha] at h; simp only [] at h; simp at h
      | ok als_recs =>
          rw [ha] at h
          simp only [] at h
          by_cases hemp : als_recs.isEmpty
          · rw [if_pos hemp] at h
            cases hf : fallbackRecs st ((st.history u).map Prod.fst) k with
            | error e => rw [hf] at h; simp at h
            | ok recs =>
                rw [hf] at h
                cases h
                rw [buildResult_strategy] at hs
                exact absurd hs (by decide)
          · rw [if_neg hemp] at h
            cases h
            have hne : als_recs ≠ [] := by
              intro hnil
              rw [hnil] at hemp
              exact hemp rfl
            have hcond : cond = true := by
              by_contra hc
              have : cond = false := by
                cases cond
                · rfl
                · exact absurd rfl hc
              rw [this, if_neg (by simp)] at ha
              cases ha
              exact hne rfl
            rw [hcond, if_pos rfl] at ha
            unfold eligibility at he
            by_cases h5 : ((st.history u).map Prod.fst).length ≥ minHistoryThreshold
            · rw [if_pos h5] at he
              cases hum : st.user_mappings with
              | none => rw [hum] at he; cases he
              | some um =>
                  rw [hum] at he
                  have hin : (assocFindS um u).isSome = true := by
                    have := he
                    simp only [Except.ok.injEq] at this
                    rw [hcond] at this
                    exact this
                  refine ⟨by simpa using h5, ⟨um, rfl, hin⟩, als_recs, ha, hne, rfl⟩
            · rw [if_neg h5] at he
              simp only [Except.ok.injEq] at he
              rw [hcond] at he
              cases he

/-- If the result is the hybrid fallback, the recommendations are the
fallback cascade's list. -/
lemma engine_fallback_inversion (st : EngineState) (u : String) (k : Nat)
    (im : Bool) (r : EngineResult)
    (h : engineGetRecommendations st u k im = Except.ok r)
    (hs : r.strategy = "hybrid_fallback") :
    ∃ recs, fallbackRecs st ((st.history u).map Prod.fst) k = Except.ok recs
      ∧ r = buildResult st u im recs "hybrid_fallback"
          ((st.history u).map Prod.fst).length := by
  simp only [engineGetRecommendations] at h
  cases he : eligibility st u ((st.history u).map Prod.fst).length with
  | error e => rw [he] at h; simp at h
  | ok cond =>
      rw [he] at h
      simp only [] at h
      cases ha : (if cond then getAlsRecommendations st u k else Except.ok []) with
      | error e => rw [ha] at h; simp only [] at h; simp at h
      | ok als_recs =>
          rw [ha] at h
          simp only [] at h
          by_cases hemp : als_recs.isEmpty
          · rw [if_pos hemp] at h
            cases hf : fallbackRecs st ((st.history u).map Prod.fst) k with
            | error e => rw [hf] at h; simp at h
            | ok recs =>
                rw [hf] at h
                cases h
                exact ⟨recs, rfl, rfl⟩
          · rw [if_neg hemp] at h
            cases h
            rw [buildResult_strategy] at hs
            exact absurd hs (by decide)

/-- Every element of a successful fallback-cascade list avoids the user's
history and both portions' invariants hold. -/
lemma fallbackRecs_mem (st : EngineState) (history_items : List String)
    (k : Nat) (recs : List (String × ℚ))
    (h : fallbackRecs st history_items k = Except.ok recs) :
    ∀ pr ∈ recs, pr.1 ∉ history_items := by
  cases hfd : st.fallback_data with
  | none =>
      simp only [fallbackRecs, hfd] at h
      exact absurd h (by simp)
  | some popular =>
      simp only [fallbackRecs, hfd] at h
      cases hc : catRecsStep st history_items
          (getPopularityRecommendations popular (max 6 (k / 2)) history_items) k with
      | error e => rw [hc] at h; simp at h
      | ok cat_recs =>
          rw [hc] at h
          simp only [] at h
          cases h
          intro pr hpr
          have hpr2 := List.mem_of_mem_take hpr
          rcases List.mem_append.mp hpr2 with hp | hp
          · exact (pop_mem _ _ _ _ hp).2
          · by_cases hhe : history_items.isEmpty
            · simp only [catRecsStep, if_pos hhe] at hc
              cases hc
              cases hp
            · simp only [catRecsStep, if_neg hhe] at hc
              cases hpm : st.product_metadata with
              | none =>
                  rw [hpm] at hc
                  simp only [] at hc
                  cases hc
                  cases hp
              | some ms =>
                  rw [hpm] at hc
                  simp only [] at hc
                  by_cases huc : ((history_items.take 5).filterMap
                      (fun item => (metaFind ms item).bind (fun p => p.main_category))).isEmpty
                  · rw [if_pos huc] at hc
                    cases hc
                    cases hp
                  · rw [if_neg huc] at hc
                    cases hpc : preferredCategory st.setEnum
                        ((history_items.take 5).filterMap
                          (fun item => (metaFind ms item).bind (fun p => p.main_category))) with
                    | none => rw [hpc] at hc; simp at hc
                    | some c =>
                        rw [hpc] at hc
                        simp only [] at hc
                        cases hc
                        rcases cat_mem ms c (k / 3) _ pr hp with ⟨p, _, _, _, _, hnx⟩
                        intro hmem
                        exact hnx (List.mem_append.mpr (Or.inl hmem))

/-- The translated ALS list respects the requested count when the model
call does (`N=top_k` is passed to `recommend`). -/
lemma getAls_length_le (st : EngineState) (u : String) (k : Nat)
    (l : List (String × ℚ))
    (hbound : ∀ uidx pl, st.alsRecommend uidx k = Except.ok pl → pl.length ≤ k)
    (h : getAlsRecommendations st u k = Except.ok l) : l.length ≤ k := by
  unfold getAlsRecommendations at h
  cases hum : st.user_mappings with
  | none => rw [hum] at h; simp at h
  | some um =>
      rw [hum] at h
      simp only [] at h
      cases hui : assocFindS um u with
      | none =>
          rw [hui] at h
          simp only [Except.ok.injEq] at h
          rw [← h]
          simp
      | some uidx =>
          rw [hui] at h
          simp only [] at h
          cases ht : alsTryBody st uidx k with
          | error e =>
              rw [ht] at h
              simp only [Except.ok.injEq] at h
              rw [← h]
              simp
          | ok recs =>
              rw [ht] at h
              simp only [Except.ok.injEq] at h
              rw [← h]
              unfold alsTryBody at ht
              by_cases hm : st.matrixAvailable = false
              · rw [if_pos hm] at ht
                simp only [Except.ok.injEq] at ht
                rw [← ht]
                simp
              · rw [if_neg hm] at ht
                cases ho : st.alsRecommend uidx k with
                | error e => rw [ho] at ht; simp at ht
                | ok pairs =>
                    rw [ho] at ht
                    simp only [] at ht
                    cases him : st.item_mappings with
                    | none => rw [him] at ht; simp at ht
                    | some im =>
                        rw [him] at ht
                        simp only [Except.ok.injEq] at ht
                        rw [← ht]
                        exact le_trans (List.length_filterMap_le _ _) (hbound uidx pairs ho)

lemma llmApply_length
    (llm : Option (String → List ServiceCandidate → Except String (List (String × String))))
    (ul : Bool) (u : String) (recs : List ServiceCandidate) :
    (llmApply llm ul u recs).length = recs.length := by
  have := congrArg List.length (llmApply_ids llm ul u recs)
  simpa using this

lemma mem_firstOccurrences (a : String) (xs : List String) :
    a ∈ firstOccurrences xs ↔ a ∈ xs := by
  induction xs with
  | nil => simp [firstOccurrences]
  | cons x l ih =>
      unfold firstOccurrences
      simp only [List.mem_cons, List.mem_filter]
      constructor
      · rintro (h | ⟨h, _⟩)
        · exact Or.inl h
        · exact Or.inr (ih.mp h)
      · rintro (h | h)
        · exact Or.inl h
        · by_cases hax : a = x
          · exact Or.inl hax
          · exact Or.inr ⟨ih.mpr h, by simpa using hax⟩

lemma firstOccurrences_ne_nil (xs : List String) (h : xs ≠ []) :
    firstOccurrences xs ≠ [] := by
  cases xs with
  | nil => exact absurd rfl h
  | cons x l => simp [firstOccurrences]

/-- The category step never raises as long as the set-iteration order of a
non-empty list is non-empty (true of CPython sets). -/
lemma catRecsStep_ok (st : EngineState) (history_items : List String)
    (pop_recs : List (String × ℚ)) (k : Nat)
    (hse : ∀ xs, xs ≠ [] → st.setEnum xs ≠ []) :
    ∃ l, catRecsStep st history_items pop_recs k = Except.ok l := by
  unfold catRecsStep
  by_cases hhe : history_items.isEmpty
  · rw [if_pos hhe]
    exact ⟨_, rfl⟩
  · rw [if_neg hhe]
    cases hpm : st.product_metadata with
    | none => exact ⟨_, rfl⟩
    | some ms =>
        simp only []
        by_cases huc : ((history_items.take 5).filterMap
            (fun item => (metaFind ms item).bind (fun p => p.main_category))).isEmpty
        · rw [if_pos huc]
          exact ⟨_, rfl⟩
        · rw [if_neg huc]
          have hcne : (history_items.take 5).filterMap
              (fun item => (metaFind ms item).bind (fun p => p.main_category)) ≠ [] := by
            intro hnil
            rw [hnil] at huc
            exact huc rfl
          rcases pyMaxBy_of_ne_nil (fun c => ((history_items.take 5).filterMap
              (fun item => (metaFind ms item).bind (fun p => p.main_category))).count c)
              _ (hse _ hcne) with ⟨c, hc⟩
          rw [show preferredCategory st.setEnum ((history_items.take 5).filterMap
              (fun item => (metaFind ms item).bind (fun p => p.main_category))) = some c from hc]
          exact ⟨_, rfl⟩

/-- The fallback cascade succeeds whenever the fallback table is loaded. -/
lemma fallbackRecs_ok (st : EngineState) (history_items : List String)
    (k : Nat) (popular : List String)
    (hfd : st.fallback_data = some popular)
    (hse : ∀ xs, xs ≠ [] → st.setEnum xs ≠ []) :
    ∃ recs, fallbackRecs st history_items k = Except.ok recs := by
  unfold fallbackRecs
  rw [hfd]
  simp only []
  rcases catRecsStep_ok st history_items
      (getPopularityRecommendations popular (max 6 (k / 2)) history_items) k hse with ⟨l, hl⟩
  rw [hl]
  exact ⟨_, rfl⟩

/-- Any successful engine result is a `buildResult` of some candidate list. -/
lemma engine_ok_buildResult (st : EngineState) (u : String) (k : Nat)
    (im : Bool) (r : EngineResult)
    (h : engineGetRecommendations st u k im = Except.ok r) :
    ∃ recs strat, r = buildResult st u im recs strat
        ((st.history u).map Prod.fst).length := by
  simp only [engineGetRecommendations] at h
  cases he : eligibility st u ((st.history u).map Prod.fst).length with
  | error e => rw [he] at h; simp at h
  | ok cond =>
      rw [he] at h
      simp only [] at h
      cases ha : (if cond then getAlsRecommendations st u k else Except.ok []) with
      | error e => rw [ha] at h; simp only [] at h; simp at h
      | ok als_recs =>
          rw [ha] at h
          simp only [] at h
          by_cases hemp : als_recs.isEmpty
          · rw [if_pos hemp] at h
            cases hf : fallbackRecs st ((st.history u).map Prod.fst) k with
            | error e => rw [hf] at h; simp at h
            | ok recs =>
                rw [hf] at h
                cases h
                exact ⟨recs, _, rfl⟩
          · rw [if_neg hemp] at h
            cases h
            exact ⟨als_recs, _, rfl⟩

/-- Computation rule: no collaborative result (ineligible or empty ALS
output) routes the request through the fallback cascade. -/
lemma engine_eq_fallback (st : EngineState) (u : String) (k : Nat) (im : Bool)
    (cond : Bool)
    (hel : eligibility st u ((st.history u).map Prod.fst).length = Except.ok cond)
    (hals : cond = true → getAlsRecommendations st u k = Except.ok [])
    (recs : List (String × ℚ))
    (hfall : fallbackRecs st ((st.history u).map Prod.fst) k = Except.ok recs) :
    engineGetRecommendations st u k im
      = Except.ok (buildResult st u im recs "hybrid_fallback"
          ((st.history u).map Prod.fst).length) := by
  simp only [engineGetRecommendations]
  rw [hel]
  simp only []
  cases cond with
  | false =>
      rw [if_neg (by simp)]
      simp only [List.isEmpty_nil, if_true]
      rw [hfall]
  | true =>
      simp only [eq_self_iff_true, if_true]
      rw [hals rfl]
      simp only [List.isEmpty_nil, if_true]
      rw [hfall]

/-- Computation rule: an eligible user with a non-empty translated ALS
result gets the collaborative answer. -/
lemma engine_eq_als (st : EngineState) (u : String) (k : Nat) (im : Bool)
    (l : List (String × ℚ))
    (hel : eligibility st u ((st.history u).map Prod.fst).length = Except.ok true)
    (hals : getAlsRecommendations st u k = Except.ok l) (hne : l ≠ []) :
    engineGetRecommendations st u k im
      = Except.ok (buildResult st u im l "als_collaborative"
          ((st.history u).map Prod.fst).length) := by
  simp only [engineGetRecommendations]
  rw [hel]
  simp only []
  simp only [eq_self_iff_true, if_true]
  rw [hals]
  simp only []
  rw [if_neg (by simpa [List.isEmpty_iff] using hne)]

/-- In the production configuration (engine never `load_models`-ed, or no
recommender at all) the service answers from its static fallback. -/
lemma service_eq_fallback_of_unloaded (ss : ServiceState)
    (history : String → List (String × ℚ))
    (als : Nat → Nat → Except String (List (Nat × ℚ)))
    (enum : List String → List String) (u : String) (k : Nat) (ul : Bool)
    (hrec : ss.recommender = none
      ∨ ss.recommender = some (unloadedEngineState history als enum)) :
    serviceGetRecommendations ss u k ul = getFallbackRecommendations ss u k ul := by
  rcases hrec with hrec | hrec
  · simp only [serviceGetRecommendations, hrec]
  · rcases unloadedEngine_error history als enum u k true with ⟨e, he⟩
    exact serviceGetRecommendations_of_error ss _ u k ul e hrec
      (serviceTry_error_of_engine_error ss _ u k ul e he)

/-! ## Claim theorems -/

/-- C1: the engine result is tagged `als_collaborative` only if the user's
history has at least 5 items and the user is in the user index mapping;
conversely, for a user meeting both conditions whose collaborative scoring
call succeeds with a non-empty translated result (the model honouring the
requested count `N = k`), the result is tagged `als_collaborative` and has
at most `k` candidates. -/
theorem C1_als_collaborative_characterisation (st : EngineState) (u : String)
    (k : Nat) (im : Bool) :
    (∀ r, engineGetRecommendations st u k im = Except.ok r →
        r.strategy = "als_collaborative" →
        (st.history u).length ≥ 5
          ∧ ∃ um, st.user_mappings = some um ∧ (assocFindS um u).isSome)
    ∧ (∀ um l, (st.history u).length ≥ 5 →
        st.user_mappings = some um → (assocFindS um u).isSome →
        (∀ uidx pl, st.alsRecommend uidx k = Except.ok pl → pl.length ≤ k) →
        getAlsRecommendations st u k = Except.ok l → l ≠ [] →
        ∃ r, engineGetRecommendations st u k im = Except.ok r
          ∧ r.strategy = "als_collaborative"
          ∧ r.recommendations.length ≤ k) := by
  constructor
  · intro r h hs
    rcases engine_als_inversion st u k im r h hs with ⟨h5, hum, _⟩
    exact ⟨h5, hum⟩
  · intro um l h5 hum hin hbound hals hne
    have hlen : ((st.history u).map Prod.fst).length ≥ minHistoryThreshold := by
      simpa [minHistoryThreshold] using h5
    have hel : eligibility st u ((st.history u).map Prod.fst).length
        = Except.ok true := by
      unfold eligibility
      rw [if_pos hlen, hum]
      simp only [Except.ok.injEq]
      exact hin
    refine ⟨_, engine_eq_als st u k im l hel hals hne, buildResult_strategy .., ?_⟩
    rw [buildResult_length]
    exact getAls_length_le st u k l hbound hals

/-- Witness for C1 at a concrete loaded state. -/
theorem C1_witness :
    ∃ r, engineGetRecommendations stC1 "u1" 10 false = Except.ok r
      ∧ r.strategy = "als_collaborative" ∧ r.recommendations.length ≤ 10 :=
  (C1_als_collaborative_characterisation stC1 "u1" 10 false).2 [("u1", 0)]
    [("X1", 2)] (by decide) rfl (by decide)
    (fun uidx pl h => by cases h; decide) rfl (by decide)

/-- C2 fails as stated: with `filter_already_liked_items=False`, the
collaborative branch can return an item of the user's history; here the
engine returns exactly `H1`, the user's own interacted item. -/
theorem C2_counterexample :
    (engineGetRecommendations stC2 "u1" 10 false).toOption.map
        (fun r => r.recommendations.map (fun c => c.product_id)) = some ["H1"]
      ∧ "H1" ∈ (stC2.history "u1").map Prod.fst := by
  exact ⟨rfl, by decide⟩

/-- C2 (amended): the exclusion invariant holds for the fallback branch —
whenever the result strategy is `hybrid_fallback`, no returned candidate
is in the user's history.  The collaborative branch does not filter
already-interacted items. -/
theorem C2_fallback_exclusion (st : EngineState) (u : String) (k : Nat)
    (im : Bool) (r : EngineResult)
    (h : engineGetRecommendations st u k im = Except.ok r)
    (hs : r.strategy = "hybrid_fallback") :
    ∀ c ∈ r.recommendations, c.product_id ∉ (st.history u).map Prod.fst := by
  rcases engine_fallback_inversion st u k im r h hs with ⟨recs, hf, hr⟩
  intro c hc
  have hid : c.product_id ∈ r.recommendations.map (fun c => c.product_id) :=
    List.mem_map_of_mem _ hc
  rw [hr, buildResult_ids] at hid
  rcases List.mem_map.mp hid with ⟨pr, hpr, hpe⟩
  rw [← hpe]
  exact fallbackRecs_mem st _ k recs hf pr hpr

/-- Witness for the amended C2 at a concrete fallback request. -/
theorem C2_fallback_exclusion_witness :
    ∃ r, engineGetRecommendations stC10 "COLD_999" 5 false = Except.ok r
      ∧ ∀ c ∈ r.recommendations,
          c.product_id ∉ (stC10.history "COLD_999").map Prod.fst :=
  ⟨_, rfl, C2_fallback_exclusion stC10 "COLD_999" 5 false _ rfl rfl⟩

/-- C10: a user with no history, absent from the mapping, `k = 5` and a
popularity table of at least 10 items gets exactly 5 candidates, strategy
`hybrid_fallback`, with confidences `[1.0, 0.9, 0.8, 0.7, 0.6]`. -/
theorem C10_cold_start_scenario (st : EngineState) (u : String)
    (popular : List String) (im : Bool)
    (hh : st.history u = [])
    (hmap : ∀ um, st.user_mappings = some um → assocFindS um u = none)
    (hfd : st.fallback_data = some popular)
    (hlen : 10 ≤ popular.length) :
    ∃ r, engineGetRecommendations st u 5 im = Except.ok r
      ∧ r.strategy = "hybrid_fallback"
      ∧ r.recommendations.length = 5
      ∧ r.recommendations.map (fun c => c.confidence)
          = [1, 9/10, 4/5, 7/10, 3/5] := by
  have h0 : (st.history u).map Prod.fst = [] := by rw [hh]; rfl
  have hpopconf : (getPopularityRecommendations popular (max 6 (5 / 2)) []).map
      Prod.snd = [1, 9/10, 4/5, 7/10, 3/5, 1/2] := by
    simp only [getPopularityRecommendations, List.isEmpty_nil, if_true]
    rw [List.map_map]
    rw [show (Prod.snd ∘ fun pr : Nat × String =>
        ((pr.2 : String), qmax (1 - (pr.1 : ℚ) * (1/10)) (1/10)))
        = (fun i : Nat => qmax (1 - (i : ℚ) * (1/10)) (1/10)) ∘ Prod.fst from rfl]
    rw [← List.map_map, List.enum_map_fst, List.length_take]
    rw [min_eq_left (le_trans (by decide) hlen)]
    rw [show List.range (max 6 (5 / 2)) = [0, 1, 2, 3, 4, 5] from rfl]
    norm_num [qmax]
  have hpoplen : (getPopularityRecommendations popular (max 6 (5 / 2)) []).length
      = 6 := by
    have := congrArg List.length hpopconf
    simpa using this
  have hel : eligibility st u ((st.history u).map Prod.fst).length
      = Except.ok false := by
    rw [h0]
    unfold eligibility
    rw [if_neg (by decide)]
  have hfall : fallbackRecs st ((st.history u).map Prod.fst) 5
      = Except.ok ((getPopularityRecommendations popular (max 6 (5 / 2)) []).take 5) := by
    rw [h0]
    unfold fallbackRecs
    rw [hfd]
    simp only []
    rw [show catRecsStep st []
        (getPopularityRecommendations popular (max 6 (5 / 2)) []) 5
        = Except.ok [] from rfl]
    simp only []
    rw [List.append_nil]
  refine ⟨_, engine_eq_fallback st u 5 im false hel (fun hc => nomatch hc) _ hfall,
    buildResult_strategy .., ?_, ?_⟩
  · rw [buildResult_length, List.length_take, hpoplen]
    rfl
  · rw [buildResult_confidences, List.map_take, hpopconf]
    rfl

/-- Witness for C10 at a concrete cold-start state. -/
theorem C10_witness :
    ∃ r, engineGetRecommendations stC10 "COLD_999" 5 true = Except.ok r
      ∧ r.strategy = "hybrid_fallback"
      ∧ r.recommendations.length = 5
      ∧ r.recommendations.map (fun c => c.confidence)
          = [1, 9/10, 4/5, 7/10, 3/5] :=
  C10_cold_start_scenario stC10 "COLD_999"
    ["P1", "P2", "P3", "P4", "P5", "P6", "P7", "P8", "P9", "P10"] true rfl
    (fun um h => Option.noConfusion h) rfl (by decide)

/-- C3: the service layer never calls `load_models`, so the engine call
raises on every request and the service always answers with strategy
`fallback`, drawing candidates from the two-element static list — at most
2 candidates whatever count was requested. -/
theorem C3_service_always_static (ss : ServiceState)
    (history : String → List (String × ℚ))
    (als : Nat → Nat → Except String (List (Nat × ℚ)))
    (enum : List String → List String) (u : String) (k : Nat) (ul : Bool)
    (hrec : ss.recommender = none
      ∨ ss.recommender = some (unloadedEngineState history als enum)) :
    (serviceGetRecommendations ss u k ul).strategy = "fallback"
    ∧ (serviceGetRecommendations ss u k ul).recommendations.map
        (fun c => c.product_id)
        = (fallbackProducts.take k).map (fun c => c.product_id)
    ∧ (serviceGetRecommendations ss u k ul).recommendations.length ≤ 2 := by
  rw [service_eq_fallback_of_unloaded ss history als enum u k ul hrec]
  refine ⟨rfl, getFallbackRecommendations_ids .., ?_⟩
  show (llmApply ss.llm ul u (fallbackProducts.take k)).length ≤ 2
  rw [llmApply_length, List.length_take]
  exact min_le_right _ _

/-- Witness for C3 with the production-shaped service state. -/
theorem C3_witness :
    (serviceGetRecommendations ssC3 "u1" 5 true).strategy = "fallback"
    ∧ (serviceGetRecommendations ssC3 "u1" 5 true).recommendations.map
        (fun c => c.product_id)
        = (fallbackProducts.take 5).map (fun c => c.product_id)
    ∧ (serviceGetRecommendations ssC3 "u1" 5 true).recommendations.length ≤ 2 :=
  C3_service_always_static ssC3
    (fun u => if u = "u1" then [("H1", 5)] else [])
    (fun _ _ => Except.ok []) firstOccurrences "u1" 5 true (Or.inr rfl)

/-- C4: failures never reach the caller — a raising collaborative scoring
call is absorbed into an empty ALS result, the engine then answers from
the fallback cascade, and the service layer turns any engine exception
into its static fallback response. -/
theorem C4_error_absorption (st : EngineState) (u : String) (k : Nat)
    (im : Bool) (um : List (String × Nat)) (uidx : Nat) (e : String)
    (popular : List String)
    (hum : st.user_mappings = some um)
    (hui : assocFindS um u = some uidx)
    (herr : st.alsRecommend uidx k = Except.error e)
    (hfd : st.fallback_data = some popular)
    (hse : ∀ xs, xs ≠ [] → st.setEnum xs ≠ []) :
    getAlsRecommendations st u k = Except.ok []
    ∧ (∃ r, engineGetRecommendations st u k im = Except.ok r
        ∧ r.strategy = "hybrid_fallback")
    ∧ (∀ ss eng u2 n ul e2, ss.recommender = some eng →
        serviceTry ss eng u2 n ul = Except.error e2 →
        serviceGetRecommendations ss u2 n ul
          = getFallbackRecommendations ss u2 n ul) := by
  have ha : getAlsRecommendations st u k = Except.ok [] := by
    unfold getAlsRecommendations
    rw [hum]
    simp only []
    rw [hui]
    simp only []
    unfold alsTryBody
    by_cases hm : st.matrixAvailable = false
    · rw [if_pos hm]
    · rw [if_neg hm, herr]
  refine ⟨ha, ?_, ?_⟩
  · rcases fallbackRecs_ok st ((st.history u).map Prod.fst) k popular hfd hse
        with ⟨recs, hfall⟩
    cases hel : eligibility st u ((st.history u).map Prod.fst).length with
    | error e2 =>
        unfold eligibility at hel
        by_cases h5 : ((st.history u).map Prod.fst).length ≥ minHistoryThreshold
        · rw [if_pos h5, hum] at hel
          simp at hel
        · rw [if_neg h5] at hel
          simp at hel
    | ok cond =>
        exact ⟨_, engine_eq_fallback st u k im cond hel (fun _ => ha) recs hfall,
          buildResult_strategy ..⟩
  · exact fun ss eng u2 n ul e2 hrec htry =>
      serviceGetRecommendations_of_error ss eng u2 n ul e2 hrec htry

/-- Witness for C4 with a concrete raising ALS model. -/
theorem C4_witness :
    getAlsRecommendations stC4 "u1" 10 = Except.ok []
    ∧ (∃ r, engineGetRecommendations stC4 "u1" 10 false = Except.ok r
        ∧ r.strategy = "hybrid_fallback")
    ∧ (∀ ss eng u2 n ul e2, ss.recommender = some eng →
        serviceTry ss eng u2 n ul = Except.error e2 →
        serviceGetRecommendations ss u2 n ul
          = getFallbackRecommendations ss u2 n ul) :=
  C4_error_absorption stC4 "u1" 10 false [("u1", 0)] 0 "shape mismatch"
    ["F1", "F2"] rfl rfl rfl rfl (fun xs h => firstOccurrences_ne_nil xs h)

/-- C5: every exposed request with `k ≥ 1` gets a non-empty recommendation
list — the static two-product list is the last-resort floor. -/
theorem C5_nonempty_floor (ss : ServiceState)
    (history : String → List (String × ℚ))
    (als : Nat → Nat → Except String (List (Nat × ℚ)))
    (enum : List String → List String) (u : String) (k : Nat) (ul : Bool)
    (hrec : ss.recommender = none
      ∨ ss.recommender = some (unloadedEngineState history als enum))
    (hk : 1 ≤ k) :
    (serviceGetRecommendations ss u k ul).recommendations ≠ [] := by
  rw [service_eq_fallback_of_unloaded ss history als enum u k ul hrec]
  apply List.ne_nil_of_length_pos
  show 0 < (llmApply ss.llm ul u (fallbackProducts.take k)).length
  rw [llmApply_length, List.length_take]
  exact lt_of_lt_of_le (by decide) (le_min hk (by decide))

/-- Witness for C5 with `k = 1`. -/
theorem C5_witness :
    (serviceGetRecommendations ssC3 "u9" 1 false).recommendations ≠ [] :=
  C5_nonempty_floor ssC3
    (fun u => if u = "u1" then [("H1", 5)] else [])
    (fun _ _ => Except.ok []) firstOccurrences "u9" 1 false (Or.inr rfl)
    (by decide)

/-- C6: the popularity portion of the fallback cascade is drawn from the
fallback table minus the user's history, holds at most `max(6, k/2)` items,
its `i`-th candidate carries confidence `max(1.0 - 0.1*i, 0.1)`, and
confidence is non-increasing with rank. -/
theorem C6_popularity_portion (popular hist : List String) (k : Nat) :
    (getPopularityRecommendations popular (max 6 (k / 2)) hist).length
        ≤ max 6 (k / 2)
    ∧ (∀ pr ∈ getPopularityRecommendations popular (max 6 (k / 2)) hist,
        pr.1 ∈ popular ∧ pr.1 ∉ hist)
    ∧ (∀ i (hi : i < (getPopularityRecommendations popular (max 6 (k / 2)) hist).length),
        ((getPopularityRecommendations popular (max 6 (k / 2)) hist).get ⟨i, hi⟩).2
          = max (1 - (i : ℚ) * (1/10)) (1/10))
    ∧ (∀ i j (hi : i < (getPopularityRecommendations popular (max 6 (k / 2)) hist).length)
        (hj : j < (getPopularityRecommendations popular (max 6 (k / 2)) hist).length),
        i ≤ j →
        ((getPopularityRecommendations popular (max 6 (k / 2)) hist).get ⟨j, hj⟩).2
          ≤ ((getPopularityRecommendations popular (max 6 (k / 2)) hist).get ⟨i, hi⟩).2) := by
  refine ⟨pop_length_le .., fun pr h => pop_mem _ _ _ pr h, ?_, ?_⟩
  · intro i hi
    rw [pop_confidence, qmax_eq_max]
  · intro i j hi hj hij
    rw [pop_confidence, pop_confidence]
    exact pop_decay_antitone i j hij

/-- Witness for C6 on a concrete table. -/
theorem C6_witness :
    (getPopularityRecommendations ["a", "b", "c"] (max 6 (10 / 2)) ["b"]).length
        ≤ max 6 (10 / 2)
    ∧ ((getPopularityRecommendations ["a", "b", "c"] (max 6 (10 / 2)) ["b"]).get
        ⟨1, by decide⟩).2 = max (1 - (1 : ℚ) * (1/10)) (1/10)
    ∧ ((getPopularityRecommendations ["a", "b", "c"] (max 6 (10 / 2)) ["b"]).get
        ⟨1, by decide⟩).2
        ≤ ((getPopularityRecommendations ["a", "b", "c"] (max 6 (10 / 2)) ["b"]).get
        ⟨0, by decide⟩).2
    ∧ ((getPopularityRecommendations ["a", "b", "c"] (max 6 (10 / 2)) ["b"]).get
        ⟨0, by decide⟩).1 ∈ ["a", "b", "c"]
    ∧ ((getPopularityRecommendations ["a", "b", "c"] (max 6 (10 / 2)) ["b"]).get
        ⟨0, by decide⟩).1 ∉ ["b"] :=
  ⟨(C6_popularity_portion ["a", "b", "c"] ["b"] 10).1,
   (C6_popularity_portion ["a", "b", "c"] ["b"] 10).2.2.1 1 (by decide),
   (C6_popularity_portion ["a", "b", "c"] ["b"] 10).2.2.2 0 1 (by decide) (by decide)
     (by decide),
   ((C6_popularity_portion ["a", "b", "c"] ["b"] 10).2.1 _
     (List.get_mem _ _ _)).1,
   ((C6_popularity_portion ["a", "b", "c"] ["b"] 10).2.1 _
     (List.get_mem _ _ _)).2⟩

/-- C7 fails as stated: with history categories `["A", "B"]` tied at one
occurrence each, the first-seen tie-break (the claim's rule) picks `A`, and
the category portion would then be `["PA"]`; the code's
`max(set(...), key=...)` under the set order `["B", "A"]` picks `B`, and
the engine returns `["PB"]`. -/
theorem C7_counterexample :
    ((stTieB.history "u2").map Prod.fst).take 5 = ["H1", "H2"]
    ∧ (["H1", "H2"].filterMap (fun item =>
        (metaFind [pmA, pmB, pmH1, pmH2] item).bind (fun p => p.main_category)))
        = ["A", "B"]
    ∧ pyMaxBy (fun c => List.count c ["A", "B"]) (firstOccurrences ["A", "B"])
        = some "A"
    ∧ (engineGetRecommendations stTieB "u2" 3 false).toOption.map
        (fun r => r.recommendations.map (fun c => c.product_id)) = some ["PB"]
    ∧ (getCategoryRecommendations (some [pmA, pmB, pmH1, pmH2]) "A" (3 / 3)
        ["H1", "H2"]).map Prod.fst = ["PA"] := by
  exact ⟨by decide, by decide, by decide, by decide, by decide⟩

/-- C7 (amended): the winning category is the most frequent one among the
collected history categories, with ties broken by the set-iteration order
(the earliest maximal-count element of the enumeration, not first-seen
order); the portion then holds at most `k/3` candidates of that category,
sorted by average rating descending, excluding the given exclusion set,
with confidence `max(0.8 - 0.1*i, 0.2)` at rank `i`. -/
theorem C7_category_portion (enum : List String → List String)
    (cats : List String)
    (henum : ∀ xs a, a ∈ enum xs ↔ a ∈ xs)
    (hne : cats ≠ [])
    (ms : List ProductMeta) (k : Nat) (exclude : List String) :
    ∃ c, preferredCategory enum cats = some c
      ∧ c ∈ cats
      ∧ (∀ d ∈ cats, cats.count d ≤ cats.count c)
      ∧ (∃ l₁ l₂, enum cats = l₁ ++ c :: l₂
          ∧ ∀ d ∈ l₁, cats.count d < cats.count c)
      ∧ (getCategoryRecommendations (some ms) c (k / 3) exclude).length ≤ k / 3
      ∧ (∀ pr ∈ getCategoryRecommendations (some ms) c (k / 3) exclude,
          pr.1 ∉ exclude ∧ ∃ p, p ∈ ms ∧ p.product_id = pr.1
            ∧ p.main_category = some c)
      ∧ ((sortByRatingDesc (catPool ms c exclude)).take (k / 3)).Pairwise
          (fun a b => ratingOf b ≤ ratingOf a)
      ∧ (∀ i (hi : i < (getCategoryRecommendations (some ms) c (k / 3) exclude).length),
          ((getCategoryRecommendations (some ms) c (k / 3) exclude).get ⟨i, hi⟩).2
            = max (8/10 - (i : ℚ) * (1/10)) (2/10)) := by
  have hex : ∃ a, a ∈ cats := by
    cases cats with
    | nil => exact absurd rfl hne
    | cons x xs => exact ⟨x, by simp⟩
  obtain ⟨a, ha⟩ := hex
  have henne : enum cats ≠ [] := by
    intro h0
    have := (henum cats a).mpr ha
    rw [h0] at this
    cases this
  cases hec : enum cats with
  | nil => exact absurd hec henne
  | cons x xs =>
      refine ⟨pyMaxCore (fun d => cats.count d) x xs, ?_, ?_, ?_, ?_,
        cat_length_le .., ?_, cat_sorted_take .., ?_⟩
      · unfold preferredCategory
        rw [hec]
        rfl
      · have := pyMaxCore_mem (fun d => cats.count d) x xs
        rw [← hec] at this
        exact (henum cats _).mp this
      · intro d hd
        have hd2 : d ∈ x :: xs := by
          rw [← hec]
          exact (henum cats d).mpr hd
        exact pyMaxCore_le (fun d => cats.count d) x xs d hd2
      · rcases pyMaxCore_first (fun d => cats.count d) x xs with ⟨l₁, l₂, hdec, hlt⟩
        exact ⟨l₁, l₂, hdec, hlt⟩
      · intro pr hpr
        rcases cat_mem ms _ (k / 3) exclude pr hpr with ⟨p, hp, hpe, hpc, _, hnx⟩
        exact ⟨hnx, p, hp, hpe, hpc⟩
      · intro i hi
        rw [cat_confidence, qmax_eq_max]

/-- Witness for the amended C7 on the tied category list. -/
theorem C7_amended_witness :
    ∃ c, preferredCategory firstOccurrences ["A", "B"] = some c
      ∧ c ∈ ["A", "B"] := by
  obtain ⟨c, hc, hm, -, -, -, -, -, -⟩ :=
    C7_category_portion firstOccurrences ["A", "B"]
      (fun xs a => mem_firstOccurrences a xs) (by decide)
      [pmA, pmB, pmH1, pmH2] 3 ["H1", "H2"]
  exact ⟨c, hc, hm⟩

/-- C8 fails as stated: two states identical in every artifact (history,
mappings, fallback table, metadata, matrix, ALS model) but with different
Python set-iteration orders return different item sequences for the same
request — the tie-break is not determined by the artifacts. -/
theorem C8_counterexample :
    stTieA.history = stTieB.history
    ∧ stTieA.user_mappings = stTieB.user_mappings
    ∧ stTieA.item_mappings = stTieB.item_mappings
    ∧ stTieA.fallback_data = stTieB.fallback_data
    ∧ stTieA.product_metadata = stTieB.product_metadata
    ∧ stTieA.matrixAvailable = stTieB.matrixAvailable
    ∧ stTieA.alsRecommend = stTieB.alsRecommend
    ∧ (engineGetRecommendations stTieA "u2" 3 false).toOption.map
        (fun r => (r.strategy, r.recommendations.map (fun c => c.product_id)))
        = some ("hybrid_fallback", ["PA"])
    ∧ (engineGetRecommendations stTieB "u2" 3 false).toOption.map
        (fun r => (r.strategy, r.recommendations.map (fun c => c.product_id)))
        = some ("hybrid_fallback", ["PB"])
    ∧ (engineGetRecommendations stTieA "u2" 3 false).toOption.map
        (fun r => r.recommendations.map (fun c => c.product_id))
        ≠ (engineGetRecommendations stTieB "u2" 3 false).toOption.map
        (fun r => r.recommendations.map (fun c => c.product_id)) :=
  ⟨rfl, rfl, rfl, rfl, rfl, rfl, rfl, by decide, by decide, by decide⟩

/-- C8 (amended): two identical requests against the same full engine state
— artifacts, interaction data, metadata, ALS scorer, and additionally the
set-iteration order, which the artifacts do not determine — return
identical results. -/
theorem C8_determinism_full_state (s1 s2 : EngineState) (u : String)
    (k : Nat) (im : Bool)
    (hh : s1.history = s2.history)
    (hum : s1.user_mappings = s2.user_mappings)
    (him : s1.item_mappings = s2.item_mappings)
    (hfd : s1.fallback_data = s2.fallback_data)
    (hpm : s1.product_metadata = s2.product_metadata)
    (hma : s1.matrixAvailable = s2.matrixAvailable)
    (hals : s1.alsRecommend = s2.alsRecommend)
    (hse : s1.setEnum = s2.setEnum) :
    engineGetRecommendations s1 u k im = engineGetRecommendations s2 u k im := by
  have heq : s1 = s2 := by
    cases s1
    cases s2
    simp_all
  rw [heq]

/-- Witness for the amended C8. -/
theorem C8_amended_witness :
    engineGetRecommendations stTieA "u2" 3 false
      = engineGetRecommendations stTieA "u2" 3 false :=
  C8_determinism_full_state stTieA stTieA "u2" 3 false rfl rfl rfl rfl rfl rfl
    rfl rfl

/-- C9 fails as stated: on a metadata miss the enriched candidate's title
is `Unknown Product` (the dict default on line 274), not `Unknown`; the
request as a whole still succeeds. -/
theorem C9_counterexample :
    (engineGetRecommendations stC9 "u" 2 true).toOption.map
        (fun r => r.recommendations.map (fun c => (c.product_id, c.title)))
      = some [("PA", some "Prod A"), ("PY", some "Unknown Product")]
    ∧ metaFind [pmA] "PY" = none
    ∧ (some "Unknown Product" : Option String) ≠ some "Unknown" :=
  ⟨by decide, by decide, by decide⟩

/-- C9 (amended): a candidate whose id misses the metadata index is
enriched with title `Unknown Product`, category `Unknown`, rating `0.0`
and price `N/A`, and the request still succeeds as a whole. -/
theorem C9_enrichment_defaults (st : EngineState) (u : String) (k : Nat)
    (r : EngineResult) (ms : List ProductMeta)
    (hpm : st.product_metadata = some ms)
    (h : engineGetRecommendations st u k true = Except.ok r) :
    ∀ c ∈ r.recommendations, metaFind ms c.product_id = none →
      c.title = some "Unknown Product" ∧ c.category = some "Unknown"
        ∧ c.rating = some (PyFloat.val 0) ∧ c.price = some "N/A" := by
  rcases engine_ok_buildResult st u k true r h with ⟨recs, strat, hr⟩
  subst hr
  intro c hc hmiss
  unfold buildResult at hc
  rw [hpm] at hc
  simp only [] at hc
  rcases List.mem_map.mp hc with ⟨pr, hpr, hpe⟩
  have hpid : c.product_id = pr.1 := by
    rw [← hpe]
    exact enrichOne_product_id ..
  rw [hpid] at hmiss
  rw [← hpe]
  unfold enrichOne
  rw [hmiss]
  exact ⟨rfl, rfl, rfl, rfl⟩

/-- Witness for the amended C9 at the concrete metadata-miss request. -/
theorem C9_amended_witness :
    ∃ r, engineGetRecommendations stC9 "u" 2 true = Except.ok r
      ∧ ∀ c ∈ r.recommendations, metaFind [pmA] c.product_id = none →
          c.title = some "Unknown Product" ∧ c.category = some "Unknown"
            ∧ c.rating = some (PyFloat.val 0) ∧ c.price = some "N/A" :=
  ⟨_, rfl, C9_enrichment_defaults stC9 "u" 2 _ [pmA] rfl rfl⟩

end Cirquix
